import Mathlib

/-!
Verification development for the `MovieData` ingestion and query layer of the
Group_07 movie-analytics repository.

The Python source (`src/movie_data.py`, with an alternate draft of the same
class in `src/Backend_and_dataset/movie_data.py`) is shallowly embedded here:

* Pandas cell values are modelled by `PyVal` (strings, numbers as exact
  rationals, parsed genre mappings, and a missing/None value).
* The Movies table keeps the two positional columns the queries use:
  column 3 (release date, a string) and column 8 (genre, a string that
  `movie_type` lazily replaces by a parsed mapping).
* The Characters table keeps the full positional row (`List PyVal`), because
  `actor_distributions` scans every cell of a row.
* `ast.literal_eval` is embedded for the shape the genre column actually
  holds: flat Python dict literals mapping single-quoted strings to
  single-quoted strings.
* `pd.to_datetime(..., errors="coerce")` is embedded per cell as a total
  function returning `Option` for the ISO-like `YYYY[-MM[-DD]]` strings the
  dataset holds; an unparseable cell yields `none` (pandas `NaT`), never an
  exception.
* `pandas.Series.value_counts` counts distinct values keyed by first
  occurrence and stable-sorts them by descending count; `groupby(...).size()`
  counts rows per key (group-key ordering does not affect any property proved
  here).
* Python exceptions raised by the queries are modelled with `Except PyErr`:
  `ValueError` (the spec's `InvalidArgument`) carries its message, and the
  `TypeError` that `float(None)` raises is a separate constructor, because
  the source only catches `ValueError`.
-/

/-- A Python value as it can appear in a cell of the loaded tables: a string,
a number (int and float collapsed to an exact rational), a parsed genre
mapping (ordered association list, as produced by `ast.literal_eval` on the
genre column), or a missing value (`None` / `NaN`). -/
inductive PyVal where
  | str (s : String)
  | num (q : ℚ)
  | dict (m : List (String × String))
  | none
deriving DecidableEq, Repr

/-- A Python exception as raised by the query layer: `ValueError` (the spec's
`InvalidArgument`) with its message, or the argument `TypeError` that
`float(None)` or `float([])` raises. -/
inductive PyErr where
  | valueError (msg : String)
  | typeError
deriving DecidableEq, Repr

/-- The single-quote character, by code point. -/
def quoteChar : Char := Char.ofNat 39

/-- The opening-brace character, by code point. -/
def lbraceChar : Char := Char.ofNat 123

/-- The closing-brace character, by code point. -/
def rbraceChar : Char := Char.ofNat 125

/-- Scan a single-quoted Python string literal body: consume characters up to
the closing quote, returning the body and the rest. Embeds the (escape-free)
string literals the genre column holds. -/
def scanQuoted : List Char → Option (List Char × List Char)
  | [] => Option.none
  | c :: rest =>
    if c = quoteChar then some ([], rest)
    else (scanQuoted rest).map (fun p => (c :: p.1, p.2))

/-- Drop leading spaces, as `ast.literal_eval` tolerates them between tokens. -/
def skipSpaces : List Char → List Char
  | c :: rest => if c = ' ' then skipSpaces rest else c :: rest
  | [] => []

/-- Scan one `'key': 'value'` pair of a Python dict literal. -/
def scanPair (cs : List Char) : Option ((String × String) × List Char) :=
  match cs with
  | c :: rest =>
    if c = quoteChar then
      match scanQuoted rest with
      | some (key, afterKey) =>
        match skipSpaces afterKey with
        | ':' :: afterColon =>
          match skipSpaces afterColon with
          | c2 :: rest2 =>
            if c2 = quoteChar then
              match scanQuoted rest2 with
              | some (val, afterVal) =>
                some ((String.mk key, String.mk val), afterVal)
              | Option.none => Option.none
            else Option.none
          | [] => Option.none
        | _ => Option.none
      | Option.none => Option.none
    else Option.none
  | [] => Option.none

/-- Scan the comma-separated pairs after the first one, with fuel bounding
recursion depth. -/
def scanMorePairs (fuel : Nat) (cs : List Char) :
    Option (List (String × String) × List Char) :=
  match fuel with
  | 0 => Option.none
  | fuel' + 1 =>
    match skipSpaces cs with
    | ',' :: rest =>
      match scanPair (skipSpaces rest) with
      | some (p, rest2) =>
        (scanMorePairs fuel' rest2).map (fun q => (p :: q.1, q.2))
      | Option.none => Option.none
    | other => some ([], other)

/-- Embeds `ast.literal_eval` restricted to the value shapes the genre column
holds: a flat dict literal from single-quoted strings to single-quoted
strings (possibly empty), with optional spaces between tokens. Any other
input fails (as `literal_eval` raises on malformed input; inputs that
evaluate to a non-dict value are also mapped to failure here, which the
caller `safe_parse_dict` treats the same way as a parse failure). -/
def literal_eval_dict (s : String) : Option (List (String × String)) :=
  let cs := skipSpaces s.toList
  match cs with
  | c :: rest =>
    if c = lbraceChar then
      match skipSpaces rest with
      | d :: rest2 =>
        if d = rbraceChar then
          match skipSpaces rest2 with
          | [] => some []
          | _ => Option.none
        else
          match scanPair (d :: rest2) with
          | some (p, after1) =>
            match scanMorePairs s.length after1 with
            | some (ps, afterAll) =>
              match skipSpaces afterAll with
              | e :: rest3 =>
                if e = rbraceChar then
                  match skipSpaces rest3 with
                  | [] => some (p :: ps)
                  | _ => Option.none
                else Option.none
              | [] => Option.none
            | Option.none => Option.none
          | Option.none => Option.none
      | [] => Option.none
    else Option.none
  | [] => Option.none

/-- Embeds the inner helper `safe_parse_dict` of `MovieData.movie_type`
(src/movie_data.py lines 121-128): a string cell is parsed with
`ast.literal_eval`, keeping the result only if it is a dict and falling back
to the empty dict on parse failure; every non-string cell — including an
already-parsed dict — is mapped to the empty dict. -/
def safe_parse_dict (x : PyVal) : List (String × String) :=
  match x with
  | .str s =>
    match literal_eval_dict s with
    | some d => d
    | Option.none => []
  | _ => []

/-- One row of the Movies table, keeping the positional columns the queries
read: column 3 (release date string) and column 8 (genre cell). -/
structure MovieRow where
  date : String
  genre : PyVal
deriving DecidableEq, Repr

/-- The loaded table pair held by a `MovieData` object: `movies_df` and
`actors_df` (a Characters row is kept in full as its positional cell list). -/
structure MovieData where
  movies_df : List MovieRow
  actors_df : List (List PyVal)
deriving DecidableEq, Repr

/-- Distinct elements of a list in order of first occurrence (the key order
in which a pandas hash-based `value_counts` first meets each value): keep
each head and remove its later duplicates from the recursive result. -/
def firstOccs {α : Type} [DecidableEq α] : List α → List α
  | [] => []
  | a :: t => a :: (firstOccs t).filter (fun b => b ≠ a)

/-- Index of the first occurrence of `a` in `l` (length of `l` when absent). -/
def firstIdx {α : Type} [DecidableEq α] (l : List α) (a : α) : Nat :=
  match l with
  | [] => 0
  | b :: t => if b = a then 0 else firstIdx t a + 1

/-- Insert `x` into a list sorted by `f`-descending, before the first element
whose key is not larger — the insertion position a stable descending sort
uses for an element that preceded the list's elements. -/
def insDesc {α : Type} (f : α → Nat) (x : α) : List α → List α
  | [] => [x]
  | a :: t => if f a ≤ f x then x :: a :: t else a :: insDesc f x t

/-- Stable insertion sort by `f`-descending; embeds the stable
descending-count sort of `pandas.Series.value_counts` / `sort_values`. -/
def isortDesc {α : Type} (f : α → Nat) : List α → List α
  | [] => []
  | a :: t => insDesc f a (isortDesc f t)

/-- Embeds `pandas.Series.value_counts()`: pair each distinct value (keyed in
first-occurrence order) with its number of occurrences, then stable-sort by
descending count. -/
def value_counts {α : Type} [DecidableEq α] (l : List α) : List (α × Nat) :=
  isortDesc (fun p => p.2) ((firstOccs l).map (fun k => (k, l.count k)))

/-- Values list of a parsed genre cell, as `genre_dict.values()` yields them
(insertion order); non-dict cells have no values. -/
def dict_values : PyVal → List String
  | .dict m => m.map Prod.snd
  | _ => []

/-- Embeds `MovieData.movie_type` (src/movie_data.py lines 106-136) on the
typed state: first the genre column is overwritten in place with
`safe_parse_dict` of each cell (the lazy normalization — note this mutates
`movies_df`), then all genre names across all rows are flattened into one
list and counted with `value_counts`, keeping the top `N`. Returns the
mutated state together with the `(Movie_Type, Count)` rows. The source's
`isinstance(N, int)` guard and the column-8 `KeyError` guard cannot fire on
this typed state and need no error case. -/
def movie_type (md : MovieData) (N : Nat) : MovieData × List (String × Nat) :=
  let newMovies := md.movies_df.map
    (fun r => { r with genre := PyVal.dict (safe_parse_dict r.genre) })
  let all_genres := newMovies.foldr (fun r acc => dict_values r.genre ++ acc) []
  (⟨newMovies, md.actors_df⟩, (value_counts all_genres).take N)

/-- The flattened sequence of all rows' parsed genre-mapping values of a
state, in row order — the multiset `movie_type` counts over. -/
def all_genres_of (md : MovieData) : List String :=
  md.movies_df.foldr (fun r acc => (safe_parse_dict r.genre).map Prod.snd ++ acc) []

/-- Split a character list at every occurrence of a separator character
(the single-character case of Python and pandas string splitting). -/
def splitOnChar (sep : Char) : List Char → List (List Char)
  | [] => [[]]
  | c :: rest =>
    if c = sep then [] :: splitOnChar sep rest
    else
      match splitOnChar sep rest with
      | [] => [[c]]
      | t :: ts => (c :: t) :: ts

/-- Numeric value of a digit run (most significant first). -/
def digitsVal (cs : List Char) : Nat :=
  cs.foldl (fun n c => n * 10 + (c.toNat - 48)) 0

/-- Parse a nonempty all-digit character run as a natural number. -/
def digitsToNat (cs : List Char) : Option Nat :=
  if cs ≠ [] ∧ cs.all Char.isDigit then some (digitsVal cs) else Option.none

/-- Strip leading and trailing whitespace (Python `float()` tolerates it). -/
def trimChars (cs : List Char) : List Char :=
  ((cs.dropWhile Char.isWhitespace).reverse.dropWhile Char.isWhitespace).reverse

/-- Parse an unsigned decimal numeral with an optional fractional part
(`"12"`, `"1.8"`, `"1."`, `".5"`), the shapes Python `float()` accepts for
the strings this code converts. -/
def parseUnsigned (cs : List Char) : Option ℚ :=
  match splitOnChar '.' cs with
  | [i] => (digitsToNat i).map (fun n => (n : ℚ))
  | [i, f] =>
    if i = [] ∧ f = [] then Option.none
    else
      match (if i = [] then some 0 else digitsToNat i),
            (if f = [] then some 0 else digitsToNat f) with
      | some a, some b => some ((a : ℚ) + (b : ℚ) / ((10 : ℚ) ^ f.length))
      | _, _ => Option.none
  | _ => Option.none

/-- Embeds Python `float(s)` on a string: optional surrounding spaces and an
optional sign around a decimal numeral; anything else fails (a `ValueError`
in Python). Exponent and special-value forms are not needed by this code. -/
def parseFloat (s : String) : Option ℚ :=
  match trimChars s.toList with
  | '-' :: rest => (parseUnsigned rest).map (fun q => -q)
  | '+' :: rest => parseUnsigned rest
  | t => parseUnsigned t

/-- Embeds Python `float(x)` on a cell value: numbers convert, strings are
parsed (failure is a `ValueError`), and any other type — `None`, lists — is
rejected with a `TypeError`. -/
def pyFloat : PyVal → Except PyErr ℚ
  | .num q => .ok q
  | .str s =>
    match parseFloat s with
    | some q => .ok q
    | Option.none =>
      .error (.valueError ("could not convert string to float: " ++ s))
  | _ => .error .typeError

/-- Embeds per cell `pd.to_datetime(s, errors="coerce")` followed by `.year`
and `.month`, for the ISO-like `YYYY`, `YYYY-MM` and `YYYY-MM-DD` strings
the dataset's date columns hold: an out-of-range month, an out-of-range day
or any other shape coerces to `NaT`, modelled as `none` — the coercing parse
never raises. A bare four-digit year parses to January 1 of that year. -/
def to_datetime_parts (s : String) : Option (Nat × Nat) :=
  match splitOnChar '-' s.toList with
  | [y] => if y.length = 4 then (digitsToNat y).map (fun n => (n, 1)) else Option.none
  | [y, m] =>
    if y.length = 4 then
      match digitsToNat y, digitsToNat m with
      | some yn, some mn =>
        if 1 ≤ mn ∧ mn ≤ 12 then some (yn, mn) else Option.none
      | _, _ => Option.none
    else Option.none
  | [y, m, d] =>
    if y.length = 4 then
      match digitsToNat y, digitsToNat m, digitsToNat d with
      | some yn, some mn, some dn =>
        if 1 ≤ mn ∧ mn ≤ 12 ∧ 1 ≤ dn ∧ dn ≤ 31 then some (yn, mn) else Option.none
      | _, _, _ => Option.none
    else Option.none
  | _ => Option.none

/-- Year of a coercively parsed date cell (`pd.to_datetime(..).dt.year`). -/
def to_datetime_year (s : String) : Option Nat :=
  (to_datetime_parts s).map Prod.fst

/-- Coercing date parse of an arbitrary cell: only string cells can parse
(the Characters birth-date column holds strings after `dropna`). -/
def to_datetime_cell : PyVal → Option (Nat × Nat)
  | .str s => to_datetime_parts s
  | _ => Option.none

/-- Insert into an ascending list of keys (helper for sorted group keys). -/
def insAsc (x : Nat) : List Nat → List Nat
  | [] => [x]
  | a :: t => if x ≤ a then x :: a :: t else a :: insAsc x t

/-- Ascending insertion sort on numeric keys; `pandas.groupby` lists its
group keys in ascending order. -/
def sortAsc : List Nat → List Nat
  | [] => []
  | a :: t => insAsc a (sortAsc t)

/-- Embeds `groupby(key).size()` over a list of numeric keys: each distinct
key, in ascending key order, with its number of occurrences. Missing keys
have already been dropped by the caller, as pandas `groupby` drops `NaN`. -/
def groupCounts (ks : List Nat) : List (Nat × Nat) :=
  (sortAsc (firstOccs ks)).map (fun k => (k, ks.count k))

/-- Embeds the genre-filter predicate of `MovieData.releases`
(src/movie_data.py line 228): `genre in list(g.values()) if isinstance(g,
dict) else False` — only an already-parsed mapping cell can match. -/
def genre_has (v : PyVal) (g : String) : Bool :=
  match v with
  | .dict m => (m.map Prod.snd).contains g
  | _ => false

/-- Embeds `MovieData.releases` (src/movie_data.py lines 216-231). The
`try` branch computes the Year column with the coercing date parse, which is
total — it yields a missing year for an unparseable cell instead of raising
— so the `except` fallback (`df[3].astype(str).str[:4].astype(float)`) is
unreachable and does not appear in the embedding. Rows are then optionally
restricted to those whose genre mapping contains `genre`, and grouped by
year; `groupby` drops rows with a missing year. -/
def releases (md : MovieData) (genre : Option String) : List (Nat × Nat) :=
  let df : List (MovieRow × Option Nat) :=
    md.movies_df.map (fun r => (r, to_datetime_year r.date))
  let df : List (MovieRow × Option Nat) := match genre with
    | some g => df.filter (fun rc => genre_has rc.1.genre g)
    | Option.none => df
  groupCounts (df.filterMap (fun rc => rc.2))

/-- Modelled from the spec: the per-row fallback the spec describes for
`releases` — "if [the date parse] fails for a row, fall back to taking the
first four characters of the raw string and parsing as a number", the row
then still contributing its fallback year to the per-year counts. The
source has no such per-row fallback; this definition exists to compare the
spec's description with the code's behaviour. -/
def releases_with_fallback (md : MovieData) (genre : Option String) :
    List (Nat × Nat) :=
  let df : List (MovieRow × Option Nat) := md.movies_df.map (fun r =>
    (r, match to_datetime_year r.date with
        | some y => some y
        | Option.none =>
          (parseFloat (String.mk (r.date.toList.take 4))).map
            (fun q => q.floor.toNat)))
  let df : List (MovieRow × Option Nat) := match genre with
    | some g => df.filter (fun rc => genre_has rc.1.genre g)
    | Option.none => df
  groupCounts (df.filterMap (fun rc => rc.2))

/-- Embeds Python `s.upper()` (character-wise upper-casing; the period
arguments this code upper-cases are plain ASCII). -/
def pyUpper (s : String) : String :=
  String.mk (s.toList.map Char.toUpper)

/-- Embeds `MovieData.ages` (src/movie_data.py lines 233-252): the period is
upper-cased and defaulted to `"Y"` when unrecognized, the Characters
birth-date column (position 4) is coercively parsed, and births are grouped
and counted by year or by month, dropping unparseable rows. -/
def ages (md : MovieData) (period : String) : List (Nat × Nat) :=
  let p := pyUpper period
  let p := if p = "Y" ∨ p = "M" then p else "Y"
  let births := md.actors_df.map (fun r => to_datetime_cell (r.getD 4 PyVal.none))
  if p = "Y" then groupCounts (births.filterMap (fun o => o.map Prod.fst))
  else groupCounts (births.filterMap (fun o => o.map Prod.snd))

/-- Embeds `MovieData.actor_count` (src/movie_data.py lines 138-150):
Characters rows are grouped by the movie-identifier column (position 0),
each group's row count taken (`groupby(0).size()`), and `value_counts`
builds the histogram of those counts. Pandas lists group keys in ascending
key order; taking them in first-occurrence order only permutes the multiset
of sizes, on which every property proved here is invariant. -/
def actor_count (md : MovieData) : List (Nat × Nat) :=
  let ids := md.actors_df.map (fun r => r.getD 0 PyVal.none)
  let sizes := (firstOccs ids).map (fun i => ids.count i)
  value_counts sizes

/-- The result table of `actor_distributions`: its column names and its
`(Actor_Name, Height_cm, Gender)` rows. -/
structure ActorTable where
  columns : List String
  rows : List (String × ℚ × String)
deriving DecidableEq, Repr

/-- Embeds the gender sniff of `MovieData.actor_distributions`
(src/movie_data.py line 192): the first cell equal to `"M"` or `"F"`. -/
def row_gender_heur (row : List PyVal) : Option String :=
  row.findSome? (fun c => match c with
    | .str s => if s = "M" ∨ s = "F" then some s else Option.none
    | _ => Option.none)

/-- Embeds the height sniff of `MovieData.actor_distributions`
(src/movie_data.py line 193): the first numeric cell between 1.0 and 2.5
(metres). -/
def row_height_heur (row : List PyVal) : Option ℚ :=
  row.findSome? (fun c => match c with
    | .num q => if 1 ≤ q ∧ q ≤ 5/2 then some q else Option.none
    | _ => Option.none)

/-- Embeds the name sniff of `MovieData.actor_distributions`
(src/movie_data.py line 194): the first string cell containing no digit
character. -/
def row_name_heur (row : List PyVal) : Option String :=
  row.findSome? (fun c => match c with
    | .str s => if s.toList.any Char.isDigit then Option.none else some s
    | _ => Option.none)

/-- Embeds the row scan of `MovieData.actor_distributions`
(src/movie_data.py lines 189-197): a row is kept when all three sniffed
values are found and truthy (`if row_gender and row_height and row_name`);
the gender is never the empty string and the height never zero by
construction, but the sniffed name can be the falsy empty string. A kept
row contributes `(name, height * 100, gender)`. -/
def scan_rows (rows : List (List PyVal)) : List (String × ℚ × String) :=
  rows.filterMap (fun row =>
    match row_gender_heur row, row_height_heur row, row_name_heur row with
    | some g, some h, some n =>
      if g ≠ "" ∧ h ≠ 0 ∧ n ≠ "" then some (n, h * 100, g) else Option.none
    | _, _, _ => Option.none)

/-- Embeds one height-bound conversion inside the `try` block of
`actor_distributions` (src/movie_data.py lines 167-171): a `ValueError`
from `float()` is replaced by the validation message, while any other
exception — the `TypeError` raised for `None` or a list — propagates
unchanged, because only `ValueError` is caught. -/
def heightArgFloat (v : PyVal) : Except PyErr ℚ :=
  match pyFloat v with
  | .ok q => .ok q
  | .error (.valueError _) =>
    .error (.valueError "max_height and min_height must be numeric values.")
  | .error e => .error e

/-- Embeds `MovieData.actor_distributions` (src/movie_data.py lines
152-214) without the optional plotting side effect: validate the gender
type, convert both height bounds (max first, as in the source's `try`
block), check positivity, the [50, 250] ranges and the bound order, then
scan the Characters rows heuristically, filter by gender (unless `"All"`)
and by the height range, and return the (`Actor_Name`, `Height_cm`,
`Gender`) table. The method never assigns to the loaded tables, so the
state is returned unchanged by construction and omitted. -/
def actor_distributions (md : MovieData)
    (gender maxHeightCm minHeightCm : PyVal) : Except PyErr ActorTable :=
  match gender with
  | .str g =>
    match heightArgFloat maxHeightCm with
    | .error e => .error e
    | .ok mx =>
      match heightArgFloat minHeightCm with
      | .error e => .error e
      | .ok mn =>
        if mx ≤ 0 ∨ mn ≤ 0 then
          .error (.valueError "max_height and min_height must be positive numbers.")
        else if ¬ (50 ≤ mn ∧ mn ≤ 250) then
          .error (.valueError "min_height must be between 50 cm and 250 cm.")
        else if ¬ (50 ≤ mx ∧ mx ≤ 250) then
          .error (.valueError "max_height must be between 50 cm and 250 cm.")
        else if mn > mx then
          .error (.valueError "min_height cannot be greater than max_height.")
        else
          let base := scan_rows md.actors_df
          let afterGender :=
            if g ≠ "All" then base.filter (fun r => r.2.2 == g) else base
          let afterHeight := afterGender.filter
            (fun r => decide (mn ≤ r.2.1) && decide (r.2.1 ≤ mx))
          .ok ⟨["Actor_Name", "Height_cm", "Gender"], afterHeight⟩
  | _ => .error (.valueError "Gender must be a string.")

/-- Whether a query result is the spec's `InvalidArgument` failure, i.e. a
Python `ValueError` with some message. -/
def isInvalidArgument (r : Except PyErr ActorTable) : Bool :=
  match r with
  | .error (.valueError _) => true
  | _ => false

/-- Embeds `MovieData._load_data` (src/movie_data.py lines 94-101) after
file reading: the raw Movies rows arrive as (date, genre) string cells —
`read_csv` leaves the genre column as its raw serialized-mapping text — and
`dropna()` removes any row with a missing cell; Characters rows likewise
drop any row containing a missing cell. -/
def load_data (movieRaw : List (Option String × Option String))
    (actorRaw : List (List PyVal)) : MovieData :=
  { movies_df := movieRaw.filterMap (fun p =>
      match p with
      | (some d, some g) => some (⟨d, PyVal.str g⟩ : MovieRow)
      | _ => Option.none),
    actors_df := actorRaw.filter (fun r => !(r.contains PyVal.none)) }

/-- Remove the first occurrence of a dot from a character list (helper for
Python's `s.replace(".", "", 1)`). -/
def removeFirstDotAux : List Char → List Char
  | [] => []
  | c :: t => if c = '.' then t else c :: removeFirstDotAux t

/-- Embeds Python `s.replace(".", "", 1)`. -/
def removeFirstDot (s : String) : String :=
  String.mk (removeFirstDotAux s.toList)

/-- Embeds `col.replace(".", "", 1).isdigit()`: after deleting one dot the
string is nonempty and all digits — the "purely numeric token" test of the
Backend_and_dataset draft. -/
def decimalToken (s : String) : Bool :=
  let t := removeFirstDot s
  t ≠ "" && t.toList.all Char.isDigit

/-- Whether `pat` is a leading run of `l` (helper for substring search). -/
def leadingRun : List Char → List Char → Bool
  | [], _ => true
  | _ :: _, [] => false
  | a :: ps, b :: ls => a = b && leadingRun ps ls

/-- Whether `pat` occurs contiguously inside `l`. -/
def midRun (pat : List Char) : List Char → Bool
  | [] => leadingRun pat []
  | c :: rest => leadingRun pat (c :: rest) || midRun pat rest

/-- Embeds Python's substring test `pat in s`. -/
def strContainsSub (s pat : String) : Bool :=
  midRun pat.toList s.toList

/-- Embeds Python `s.startswith(pre)`. -/
def strStartsWith (s pre : String) : Bool :=
  leadingRun pre.toList s.toList

/-- Accumulator pass for `pySplit`: walk the characters, flushing the
current (reversed) token at each whitespace run boundary. -/
def splitWsAux : List Char → List Char → List String
  | [], acc => if acc = [] then [] else [String.mk acc.reverse]
  | c :: rest, acc =>
    if c.isWhitespace then
      (if acc = [] then [] else [String.mk acc.reverse]) ++ splitWsAux rest []
    else splitWsAux rest (c :: acc)

/-- Embeds Python `col.split()`: whitespace-separated tokens of a string,
empty runs dropped. -/
def pySplit (s : String) : List String :=
  splitWsAux s.toList []

/-- Embeds the height sniff of the Backend_and_dataset draft
(src/Backend_and_dataset/movie_data.py lines 245-247): the first cell that
is numeric or a numeric-looking string (`str(col).replace(".", "",
1).isdigit()`, which for a number means it is non-negative in plain decimal
form — always true of the metre heights this matches) whose value lies
between 1.0 and 2.5 metres. -/
def row_height_heur_b (row : List PyVal) : Option ℚ :=
  row.findSome? (fun c => match c with
    | .num q => if 1 ≤ q ∧ q ≤ 5/2 then some q else Option.none
    | .str s =>
      if decimalToken s then
        match parseFloat s with
        | some q => if 1 ≤ q ∧ q ≤ 5/2 then some q else Option.none
        | Option.none => Option.none
      else Option.none
    | _ => Option.none)

/-- The Backend_and_dataset draft's name condition on one string cell
(src/Backend_and_dataset/movie_data.py lines 251-256): not a gender code,
not a purely numeric token, not a `/m/`-prefixed identifier, not containing
`"Unnamed"`, and at least two whitespace-separated tokens. -/
def name_ok_b (s : String) : Bool :=
  !(s = "M" || s = "F") && !(decimalToken s) && !(strStartsWith s "/m/") &&
  !(strContainsSub s "Unnamed") && decide ((pySplit s).length > 1)

/-- Embeds the name sniff of the Backend_and_dataset draft: the first
string cell satisfying `name_ok_b`. -/
def row_name_heur_b (row : List PyVal) : Option String :=
  row.findSome? (fun c => match c with
    | .str s => if name_ok_b s then some s else Option.none
    | _ => Option.none)

/-- Embeds the row scan of the Backend_and_dataset draft's
`actor_distributions` (src/Backend_and_dataset/movie_data.py lines
238-260): gender, height (converted to centimetres) and name sniffs must
all be found and truthy; the comparison `row_height != "########"` is
always true of a float and is omitted. -/
def scan_rows_b (rows : List (List PyVal)) : List (String × ℚ × String) :=
  rows.filterMap (fun row =>
    match row_gender_heur row, (row_height_heur_b row).map (fun q => q * 100),
        row_name_heur_b row with
    | some g, some h, some n =>
      if g ≠ "" ∧ h ≠ 0 ∧ n ≠ "" then some (n, h, g) else Option.none
    | _, _, _ => Option.none)

/-- Modelled from the spec: the name heuristic exactly as claim C5 words it
— "the first string value in the row that is not a gender code, not a
purely numeric token, not a slash-prefixed internal identifier, does not
contain the literal Unnamed, and contains at least two space-separated
tokens" — with "slash-prefixed" read as any leading slash. Exists to be
compared with the two drafts' code-derived sniffs. -/
def spec_name_first (row : List PyVal) : Option String :=
  row.findSome? (fun c => match c with
    | .str s =>
      if !(s = "M" || s = "F") && !(decimalToken s) && !(strStartsWith s "/") &&
         !(strContainsSub s "Unnamed") && decide ((pySplit s).length > 1)
      then some s else Option.none
    | _ => Option.none)

theorem mem_firstOccs {α : Type} [DecidableEq α] {l : List α} {b : α} :
    b ∈ firstOccs l ↔ b ∈ l := by
  induction l with
  | nil => simp [firstOccs]
  | cons a t ih =>
    by_cases hba : b = a
    · subst hba; simp [firstOccs]
    · simp [firstOccs, List.mem_filter, hba, ih]

theorem nodup_firstOccs {α : Type} [DecidableEq α] (l : List α) :
    (firstOccs l).Nodup := by
  induction l with
  | nil => simp [firstOccs]
  | cons a t ih =>
    refine List.nodup_cons.mpr ⟨?_, ih.filter _⟩
    intro hmem
    simp [List.mem_filter] at hmem

theorem toFinset_firstOccs {α : Type} [DecidableEq α] (l : List α) :
    (firstOccs l).toFinset = l.toFinset := by
  ext b
  simp [List.mem_toFinset, mem_firstOccs]

theorem firstIdx_cons {α : Type} [DecidableEq α] (a b : α) (t : List α) :
    firstIdx (a :: t) b = if a = b then 0 else firstIdx t b + 1 := rfl

theorem pairwise_firstIdx_firstOccs {α : Type} [DecidableEq α] (l : List α) :
    (firstOccs l).Pairwise (fun a b => firstIdx l a < firstIdx l b) := by
  induction l with
  | nil => simp [firstOccs]
  | cons a t ih =>
    refine List.Pairwise.cons ?_ ?_
    · intro b hb
      have hba : b ≠ a := by
        simp [List.mem_filter] at hb
        exact hb.2
      simp [firstIdx_cons, hba.symm, Ne.symm hba]
    · have h1 : ((firstOccs t).filter (fun b => b ≠ a)).Pairwise
          (fun x y => firstIdx t x < firstIdx t y) := ih.filter _
      refine h1.imp_of_mem ?_
      intro x y hx hy hxy
      have hxa : x ≠ a := by simp [List.mem_filter] at hx; exact hx.2
      have hya : y ≠ a := by simp [List.mem_filter] at hy; exact hy.2
      simp [firstIdx_cons, Ne.symm hxa, Ne.symm hya]
      omega

theorem insDesc_perm {α : Type} (f : α → Nat) (x : α) (l : List α) :
    List.Perm (insDesc f x l) (x :: l) := by
  induction l with
  | nil => exact List.Perm.refl _
  | cons a t ih =>
    by_cases h : f a ≤ f x
    · simp [insDesc, h]
    · simp only [insDesc, if_neg h]
      exact (ih.cons a).trans (List.Perm.swap x a t)

theorem isortDesc_perm {α : Type} (f : α → Nat) (l : List α) :
    List.Perm (isortDesc f l) l := by
  induction l with
  | nil => exact List.Perm.refl _
  | cons a t ih =>
    exact (insDesc_perm f a (isortDesc f t)).trans (ih.cons a)

theorem insDesc_pairwise {α : Type} (f : α → Nat) (R : α → α → Prop)
    (x : α) (l : List α)
    (hl : l.Pairwise (fun a b => f b < f a ∨ (f a = f b ∧ R a b)))
    (hx : ∀ a ∈ l, R x a) :
    (insDesc f x l).Pairwise (fun a b => f b < f a ∨ (f a = f b ∧ R a b)) := by
  induction l with
  | nil => simp [insDesc]
  | cons a t ih =>
    have ha : ∀ b ∈ t, f b < f a ∨ (f a = f b ∧ R a b) :=
      (List.pairwise_cons.mp hl).1
    have ht : t.Pairwise (fun a b => f b < f a ∨ (f a = f b ∧ R a b)) :=
      (List.pairwise_cons.mp hl).2
    by_cases h : f a ≤ f x
    · simp only [insDesc, if_pos h]
      refine List.Pairwise.cons ?_ hl
      intro b hb
      rcases List.mem_cons.mp hb with hb | hb
      · rcases Nat.lt_or_ge (f b) (f x) with hlt | hge
        · exact Or.inl hlt
        · have hbx : f b ≤ f x := hb ▸ h
          exact Or.inr ⟨Nat.le_antisymm hge hbx, hx b (hb ▸ List.mem_cons_self a t)⟩
      · have hba := ha b hb
        have hbx : f b ≤ f a := by rcases hba with h1 | h1 <;> omega
        rcases Nat.lt_or_ge (f b) (f x) with hlt | hge
        · exact Or.inl hlt
        · exact Or.inr ⟨by omega, hx b (List.mem_cons_of_mem a hb)⟩
    · simp only [insDesc, if_neg h]
      refine List.Pairwise.cons ?_
        (ih ht (fun b hb => hx b (List.mem_cons_of_mem a hb)))
      intro b hb
      have hb2 : b ∈ x :: t := (insDesc_perm f x t).mem_iff.mp hb
      rcases List.mem_cons.mp hb2 with hb2 | hb2
      · subst hb2; exact Or.inl (by omega)
      · exact ha b hb2

theorem isortDesc_pairwise {α : Type} (f : α → Nat) (R : α → α → Prop)
    (l : List α) (hl : l.Pairwise R) :
    (isortDesc f l).Pairwise (fun a b => f b < f a ∨ (f a = f b ∧ R a b)) := by
  induction l with
  | nil => simp [isortDesc]
  | cons a t ih =>
    have ha : ∀ b ∈ t, R a b := (List.pairwise_cons.mp hl).1
    have ht := (List.pairwise_cons.mp hl).2
    refine insDesc_pairwise f R a (isortDesc f t) (ih ht) ?_
    intro b hb
    exact ha b ((isortDesc_perm f t).mem_iff.mp hb)

theorem value_counts_pairwise {α : Type} [DecidableEq α] (l : List α) :
    (value_counts l).Pairwise
      (fun p q => q.2 < p.2 ∨ (p.2 = q.2 ∧ firstIdx l p.1 < firstIdx l q.1)) := by
  have h1 : ((firstOccs l).map (fun k => (k, l.count k))).Pairwise
      (fun p q : α × Nat => firstIdx l p.1 < firstIdx l q.1) := by
    rw [List.pairwise_map]
    exact pairwise_firstIdx_firstOccs l
  exact isortDesc_pairwise (fun p => p.2) _ _ h1

theorem mem_value_counts {α : Type} [DecidableEq α] {l : List α} {p : α × Nat}
    (hp : p ∈ value_counts l) : p.2 = l.count p.1 ∧ p.1 ∈ l := by
  have h1 : p ∈ (firstOccs l).map (fun k => (k, l.count k)) :=
    (isortDesc_perm (fun p : α × Nat => p.2)
      ((firstOccs l).map (fun k => (k, l.count k)))).mem_iff.mp hp
  rcases List.mem_map.mp h1 with ⟨k, hk, hpk⟩
  subst hpk
  exact ⟨rfl, mem_firstOccs.mp hk⟩

theorem sum_map_firstOccs_count {α : Type} [DecidableEq α] (l : List α)
    (g : α → Nat) :
    ((firstOccs l).map (fun k => g k * l.count k)).sum = (l.map g).sum := by
  rw [← List.sum_toFinset _ (nodup_firstOccs l), toFinset_firstOccs,
    Finset.sum_list_map_count l g]
  refine Finset.sum_congr rfl ?_
  intro x _
  simp [smul_eq_mul, Nat.mul_comm]

theorem sum_map_firstOccs_count_len {α : Type} [DecidableEq α] (l : List α) :
    ((firstOccs l).map (fun k => l.count k)).sum = l.length := by
  rw [← List.sum_toFinset _ (nodup_firstOccs l), toFinset_firstOccs]
  exact List.sum_toFinset_count_eq_length l

theorem sum_map_firstOccs_mul_count (l : List Nat) :
    ((firstOccs l).map (fun k => k * l.count k)).sum = l.sum := by
  simpa using sum_map_firstOccs_count l id

/-- C8: `actor_count()` never returns a row whose actor count is ≤ 0, and
the sum over all returned rows of (actor count × number of movies with that
count) equals the total number of Character rows that were grouped by movie
identifier. -/
theorem actor_count_positive_and_conserving (md : MovieData) :
    (∀ p ∈ actor_count md, 0 < p.1) ∧
    ((actor_count md).map (fun p => p.1 * p.2)).sum = md.actors_df.length := by
  have hac : actor_count md =
      value_counts ((firstOccs (md.actors_df.map (fun r => r.getD 0 PyVal.none))).map
        (fun i => (md.actors_df.map (fun r => r.getD 0 PyVal.none)).count i)) := rfl
  set ids : List PyVal := md.actors_df.map (fun r => r.getD 0 PyVal.none) with hids
  set sizes : List Nat := (firstOccs ids).map (fun i => ids.count i) with hsizes
  constructor
  · intro p hp
    rw [hac] at hp
    have h1 := mem_value_counts hp
    rcases List.mem_map.mp h1.2 with ⟨i, hi, hcount⟩
    have : i ∈ ids := mem_firstOccs.mp hi
    have hpos : 0 < ids.count i := List.count_pos_iff.mpr this
    omega
  · rw [hac]
    have hperm : List.Perm
        ((value_counts sizes).map (fun p => p.1 * p.2))
        (((firstOccs sizes).map (fun k => (k, sizes.count k))).map (fun p => p.1 * p.2)) :=
      (isortDesc_perm (fun p : Nat × Nat => p.2)
        ((firstOccs sizes).map (fun k => (k, sizes.count k)))).map _
    rw [hperm.sum_eq, List.map_map]
    have h2 : (List.map ((fun p : Nat × Nat => p.1 * p.2) ∘ fun k => (k, sizes.count k))
        (firstOccs sizes)).sum = sizes.sum := sum_map_firstOccs_mul_count sizes
    rw [h2]
    have h3 : sizes.sum = ids.length := sum_map_firstOccs_count_len ids
    rw [h3]
    exact List.length_map md.actors_df _

theorem foldr_genres (ms : List MovieRow) :
    (ms.map (fun r => { r with genre := PyVal.dict (safe_parse_dict r.genre) })).foldr
      (fun r acc => dict_values r.genre ++ acc) []
    = ms.foldr (fun r acc => (safe_parse_dict r.genre).map Prod.snd ++ acc) [] := by
  induction ms with
  | nil => rfl
  | cons r t ih =>
    simp only [List.map_cons, List.foldr_cons, ih]
    rfl

theorem movie_type_counts_eq (md : MovieData) (N : Nat) :
    (movie_type md N).2 = (value_counts (all_genres_of md)).take N := by
  simp [movie_type, all_genres_of, foldr_genres]

/-- C2: for every `n > 0`, `movie_type(n)` returns at most `n` (genre name,
count) pairs, sorted by non-increasing count, each pair counting the
occurrences of its genre name over the flattened sequence of all rows'
parsed genre-mapping values, with ties broken by first-encountered order in
that flattened sequence. -/
theorem movie_type_top_n_spec (md : MovieData) (N : Nat) (hN : 0 < N) :
    ((movie_type md N).2).length ≤ N ∧
    ((movie_type md N).2).Pairwise (fun p q => q.2 ≤ p.2) ∧
    (∀ p ∈ (movie_type md N).2,
      p.2 = (all_genres_of md).count p.1 ∧ p.1 ∈ all_genres_of md) ∧
    ((movie_type md N).2).Pairwise
      (fun p q => p.2 = q.2 →
        firstIdx (all_genres_of md) p.1 < firstIdx (all_genres_of md) q.1) := by
  rw [movie_type_counts_eq]
  refine ⟨?_, ?_, ?_, ?_⟩
  · simp [List.length_take]
  · refine List.Pairwise.sublist (List.take_sublist _ _) ?_
    refine (value_counts_pairwise (all_genres_of md)).imp ?_
    intro p q h
    rcases h with h | ⟨h, _⟩ <;> omega
  · intro p hp
    exact mem_value_counts (List.mem_of_mem_take hp)
  · refine List.Pairwise.sublist (List.take_sublist _ _) ?_
    refine (value_counts_pairwise (all_genres_of md)).imp ?_
    intro p q h heq
    rcases h with h | ⟨h1, h2⟩
    · omega
    · exact h2

/-- C1: evaluation at the failing input. The first `movie_type(1)` on a
single-movie table whose genre cell is the raw text for the mapping
`c1 ↦ Drama` yields one `("Drama", 1)` row, but the second call on the
state the first call produced yields no rows at all, because
`safe_parse_dict` maps the already-parsed mapping — a non-string cell —
back to the empty mapping rather than to the same mapping. This refutes
the claimed idempotence of the lazy normalization on the code as written. -/
theorem movie_type_not_idempotent_eval :
    (movie_type ⟨[⟨"2000-01-01",
        PyVal.str "\x7b\x27c1\x27: \x27Drama\x27\x7d"⟩], []⟩ 1).2
      = [("Drama", 1)] ∧
    (movie_type (movie_type ⟨[⟨"2000-01-01",
        PyVal.str "\x7b\x27c1\x27: \x27Drama\x27\x7d"⟩], []⟩ 1).1 1).2
      = [] ∧
    safe_parse_dict (PyVal.dict [("c1", "Drama")]) = [] ∧
    [("c1", "Drama")] ≠ ([] : List (String × String)) := by
  refine ⟨rfl, rfl, rfl, by decide⟩

/-- C2, witnessed: the theorem applied to a concrete two-movie table with
`n = 2`. -/
theorem movie_type_top_n_spec_witness :
    0 < 2 ∧
    (((movie_type ⟨[⟨"1999-10-29",
          PyVal.str "\x7b\x27a\x27: \x27Drama\x27, \x27b\x27: \x27Comedy\x27\x7d"⟩,
        ⟨"2000-01-01", PyVal.str "\x7b\x27a\x27: \x27Drama\x27\x7d"⟩], []⟩ 2).2).length ≤ 2 ∧
     ((movie_type ⟨[⟨"1999-10-29",
          PyVal.str "\x7b\x27a\x27: \x27Drama\x27, \x27b\x27: \x27Comedy\x27\x7d"⟩,
        ⟨"2000-01-01", PyVal.str "\x7b\x27a\x27: \x27Drama\x27\x7d"⟩], []⟩ 2).2).Pairwise
        (fun p q => q.2 ≤ p.2) ∧
     (∀ p ∈ (movie_type ⟨[⟨"1999-10-29",
          PyVal.str "\x7b\x27a\x27: \x27Drama\x27, \x27b\x27: \x27Comedy\x27\x7d"⟩,
        ⟨"2000-01-01", PyVal.str "\x7b\x27a\x27: \x27Drama\x27\x7d"⟩], []⟩ 2).2,
       p.2 = (all_genres_of ⟨[⟨"1999-10-29",
          PyVal.str "\x7b\x27a\x27: \x27Drama\x27, \x27b\x27: \x27Comedy\x27\x7d"⟩,
        ⟨"2000-01-01", PyVal.str "\x7b\x27a\x27: \x27Drama\x27\x7d"⟩], []⟩).count p.1 ∧
       p.1 ∈ all_genres_of ⟨[⟨"1999-10-29",
          PyVal.str "\x7b\x27a\x27: \x27Drama\x27, \x27b\x27: \x27Comedy\x27\x7d"⟩,
        ⟨"2000-01-01", PyVal.str "\x7b\x27a\x27: \x27Drama\x27\x7d"⟩], []⟩) ∧
     ((movie_type ⟨[⟨"1999-10-29",
          PyVal.str "\x7b\x27a\x27: \x27Drama\x27, \x27b\x27: \x27Comedy\x27\x7d"⟩,
        ⟨"2000-01-01", PyVal.str "\x7b\x27a\x27: \x27Drama\x27\x7d"⟩], []⟩ 2).2).Pairwise
        (fun p q => p.2 = q.2 →
          firstIdx (all_genres_of ⟨[⟨"1999-10-29",
              PyVal.str "\x7b\x27a\x27: \x27Drama\x27, \x27b\x27: \x27Comedy\x27\x7d"⟩,
            ⟨"2000-01-01", PyVal.str "\x7b\x27a\x27: \x27Drama\x27\x7d"⟩], []⟩) p.1 <
          firstIdx (all_genres_of ⟨[⟨"1999-10-29",
              PyVal.str "\x7b\x27a\x27: \x27Drama\x27, \x27b\x27: \x27Comedy\x27\x7d"⟩,
            ⟨"2000-01-01", PyVal.str "\x7b\x27a\x27: \x27Drama\x27\x7d"⟩], []⟩) q.1)) :=
  ⟨by decide, movie_type_top_n_spec _ 2 (by decide)⟩

/-- C7: for every period string whose upper-cased form is neither `"Y"` nor
`"M"`, `ages(period)` returns exactly the same result as `ages("Y")` (and
in particular does not fail, being a total function of the typed state). -/
theorem ages_unrecognized_defaults_to_year (md : MovieData) (p : String)
    (h1 : pyUpper p ≠ "Y") (h2 : pyUpper p ≠ "M") :
    ages md p = ages md "Y" := by
  have hY : pyUpper "Y" = "Y" := rfl
  simp [ages, h1, h2, hY]

/-- C7, witnessed: `ages("X")` equals `ages("Y")` on a concrete table. -/
theorem ages_unrecognized_defaults_to_year_witness :
    (pyUpper "X" ≠ "Y" ∧ pyUpper "X" ≠ "M") ∧
    ages ⟨[], [[PyVal.str "i", PyVal.str "c", PyVal.str "c", PyVal.str "c",
        PyVal.str "1958-08-26"]]⟩ "X"
      = ages ⟨[], [[PyVal.str "i", PyVal.str "c", PyVal.str "c", PyVal.str "c",
        PyVal.str "1958-08-26"]]⟩ "Y" :=
  ⟨⟨by decide, by decide⟩,
    ages_unrecognized_defaults_to_year _ "X" (by decide) (by decide)⟩

/-- C9: in the state produced directly by loading, every genre cell is a
raw string, and for every genre name the genre-filtered `releases` query
returns an empty table, because its filter keeps only rows whose genre cell
is an already-parsed mapping. -/
theorem loaded_genres_raw_so_filtered_releases_empty
    (movieRaw : List (Option String × Option String))
    (actorRaw : List (List PyVal)) (g : String) :
    (∀ r ∈ (load_data movieRaw actorRaw).movies_df, ∃ s, r.genre = PyVal.str s) ∧
    releases (load_data movieRaw actorRaw) (some g) = [] := by
  have hstr : ∀ r ∈ (load_data movieRaw actorRaw).movies_df,
      ∃ s, r.genre = PyVal.str s := by
    intro r hr
    simp only [load_data, List.mem_filterMap] at hr
    obtain ⟨p, _, hmatch⟩ := hr
    obtain ⟨od, og⟩ := p
    cases od with
    | none => simp at hmatch
    | some d =>
      cases og with
      | none => simp at hmatch
      | some gg =>
        simp only [Option.some.injEq] at hmatch
        subst hmatch
        exact ⟨gg, rfl⟩
  refine ⟨hstr, ?_⟩
  simp only [releases]
  have hfil : ((load_data movieRaw actorRaw).movies_df.map
      (fun r => (r, to_datetime_year r.date))).filter
        (fun rc => genre_has rc.1.genre g) = [] := by
    rw [List.filter_eq_nil_iff]
    intro rc hrc
    rcases List.mem_map.mp hrc with ⟨r, hr, hrrc⟩
    obtain ⟨s, hs⟩ := hstr r hr
    subst hrrc
    simp [genre_has, hs]
  rw [hfil]
  rfl

/-- C10: when a height bound has a type whose numeric conversion fails with
a type error (such as `None` or a list) rather than a value error, the
`actor_distributions` call propagates that `TypeError` unchanged instead of
raising the documented `InvalidArgument`-style `ValueError`, because the
conversion guard catches only value errors. Stated for the max bound and,
when the max bound converts, for the min bound. -/
theorem actor_distributions_type_error_propagates (md : MovieData)
    (g : String) (mx mn : PyVal) :
    (pyFloat mx = Except.error PyErr.typeError →
      actor_distributions md (PyVal.str g) mx mn
        = Except.error PyErr.typeError) ∧
    (∀ q : ℚ, pyFloat mx = Except.ok q →
      pyFloat mn = Except.error PyErr.typeError →
      actor_distributions md (PyVal.str g) mx mn
        = Except.error PyErr.typeError) := by
  constructor
  · intro h
    simp [actor_distributions, heightArgFloat, h]
  · intro q hq h
    simp [actor_distributions, heightArgFloat, hq, h]

/-- C10, witnessed: a `None` max bound propagates the `TypeError`. -/
theorem actor_distributions_type_error_propagates_witness :
    actor_distributions ⟨[], []⟩ (PyVal.str "M") PyVal.none (PyVal.num 150)
      = Except.error PyErr.typeError :=
  (actor_distributions_type_error_propagates ⟨[], []⟩ "M" PyVal.none
    (PyVal.num 150)).1 rfl

theorem years_filterMap_drop (ms : List MovieRow) (p : MovieRow → Bool) :
    (((ms.map (fun r => (r, to_datetime_year r.date))).filter
        (fun rc => p rc.1)).filterMap (fun rc => rc.2))
    = ((((ms.filter (fun r => (to_datetime_year r.date).isSome)).map
        (fun r => (r, to_datetime_year r.date))).filter
        (fun rc => p rc.1)).filterMap (fun rc => rc.2)) := by
  induction ms with
  | nil => rfl
  | cons r t ih =>
    cases hy : to_datetime_year r.date with
    | none =>
      by_cases hp : p r <;>
        simp [List.filter_cons, List.filterMap_cons, hy, hp, ih]
    | some y =>
      by_cases hp : p r <;>
        simp [List.filter_cons, List.filterMap_cons, hy, hp, ih]

/-- C6, amended: `releases` derives each row's year with the coercing date
parse only; a row whose date fails to parse gets a missing year and is
dropped from the per-year counts — removing such rows beforehand changes
nothing. The spec's first-four-characters fallback sits in an `except`
branch that only runs if the whole-column conversion raises, which the
coercing parse never does, so no per-row fallback occurs. -/
theorem releases_drops_unparseable_dates (md : MovieData)
    (genre : Option String) :
    releases md genre =
      releases ⟨md.movies_df.filter (fun r => (to_datetime_year r.date).isSome),
        md.actors_df⟩ genre := by
  cases genre with
  | none =>
    simp only [releases]
    have h := years_filterMap_drop md.movies_df (fun _ => true)
    simp only [List.filter_true] at h
    exact congrArg groupCounts h
  | some g =>
    simp only [releases]
    exact congrArg groupCounts
      (years_filterMap_drop md.movies_df (fun r => genre_has r.genre g))

/-- C6, counterexample: a movie whose release date `"2010-13-40"` fails the
coercing date parse (month 13) is dropped by `releases`, which returns no
rows — while the claimed per-row fallback behaviour, modelled from the
spec's words, would parse the first four characters and count the movie
under year 2010. -/
theorem releases_fallback_counterexample :
    releases ⟨[⟨"2010-13-40", PyVal.str "g"⟩], []⟩ Option.none = [] ∧
    releases_with_fallback ⟨[⟨"2010-13-40", PyVal.str "g"⟩], []⟩ Option.none
      = [(2010, 1)] ∧
    ([] : List (Nat × Nat)) ≠ [(2010, 1)] := by
  refine ⟨rfl, rfl, by decide⟩

theorem row_height_heur_bounds {row : List PyVal} {h : ℚ}
    (hh : row_height_heur row = some h) : 1 ≤ h ∧ h ≤ 5/2 := by
  obtain ⟨c, _, hc⟩ := List.exists_of_findSome?_eq_some hh
  cases c with
  | num q =>
    dsimp only at hc
    by_cases hq : 1 ≤ q ∧ q ≤ 5/2
    · rw [if_pos hq] at hc
      injection hc with hc
      exact hc ▸ hq
    · simp [hq] at hc
  | str s => simp at hc
  | dict m => simp at hc
  | none => simp at hc

theorem scan_rows_height_bounds {rows : List (List PyVal)}
    {r : String × ℚ × String} (hr : r ∈ scan_rows rows) :
    100 ≤ r.2.1 ∧ r.2.1 ≤ 250 := by
  simp only [scan_rows, List.mem_filterMap] at hr
  obtain ⟨row, _, hmatch⟩ := hr
  rcases hg : row_gender_heur row with _ | g <;> rw [hg] at hmatch
  · simp at hmatch
  rcases hh : row_height_heur row with _ | h <;> rw [hh] at hmatch
  · simp at hmatch
  rcases hn : row_name_heur row with _ | n <;> rw [hn] at hmatch
  · simp at hmatch
  dsimp only at hmatch
  by_cases hcond : g ≠ "" ∧ h ≠ 0 ∧ n ≠ ""
  · rw [if_pos hcond] at hmatch
    injection hmatch with hmatch
    obtain ⟨h1, h2⟩ := row_height_heur_bounds hh
    subst hmatch
    show 100 ≤ h * 100 ∧ h * 100 ≤ 250
    constructor <;> nlinarith
  · rw [if_neg hcond] at hmatch
    simp at hmatch

/-- C3: for every call whose arguments pass validation (here: a string
gender and numeric bounds, with the call returning a table), every returned
row lies within the requested height range and matches the requested gender
unless it is `"All"`; the table always carries the columns `Actor_Name`,
`Height_cm`, `Gender`; and with both bounds 50 cm the returned table is
empty (no sniffed height is below 100 cm), with its columns intact and no
error raised. -/
theorem actor_distributions_filter_invariant (md : MovieData) (g : String)
    (mx mn : ℚ) (tbl : ActorTable)
    (heq : actor_distributions md (PyVal.str g) (PyVal.num mx) (PyVal.num mn)
      = Except.ok tbl) :
    tbl.columns = ["Actor_Name", "Height_cm", "Gender"] ∧
    (∀ r ∈ tbl.rows, mn ≤ r.2.1 ∧ r.2.1 ≤ mx ∧ (g = "All" ∨ r.2.2 = g)) ∧
    (mx = 50 → tbl.rows = []) := by
  simp only [actor_distributions, heightArgFloat, pyFloat] at heq
  by_cases hc1 : mx ≤ 0 ∨ mn ≤ 0
  · rw [if_pos hc1] at heq; exact absurd heq (by simp)
  rw [if_neg hc1] at heq
  by_cases hc2 : ¬ (50 ≤ mn ∧ mn ≤ 250)
  · rw [if_pos hc2] at heq; exact absurd heq (by simp)
  rw [if_neg hc2] at heq
  by_cases hc3 : ¬ (50 ≤ mx ∧ mx ≤ 250)
  · rw [if_pos hc3] at heq; exact absurd heq (by simp)
  rw [if_neg hc3] at heq
  by_cases hc4 : mn > mx
  · rw [if_pos hc4] at heq; exact absurd heq (by simp)
  rw [if_neg hc4] at heq
  · rw [Except.ok.injEq] at heq
    subst heq
    refine ⟨rfl, ?_, ?_⟩
    · intro r hr
      simp only [List.mem_filter, Bool.and_eq_true, decide_eq_true_eq] at hr
      have hrg := hr.1
      refine ⟨hr.2.1, hr.2.2, ?_⟩
      by_cases hall : g = "All"
      · exact Or.inl hall
      · right
        rw [if_pos (by exact hall)] at hrg
        simp only [List.mem_filter, beq_iff_eq] at hrg
        exact hrg.2
    · intro h50
      subst h50
      rw [List.filter_eq_nil_iff]
      intro r hr
      have hbase : r ∈ scan_rows md.actors_df := by
        by_cases hall : g = "All"
        · rw [if_neg (by simp [hall])] at hr
          exact hr
        · rw [if_pos (by exact hall)] at hr
          exact List.mem_of_mem_filter hr
      have hb := scan_rows_height_bounds hbase
      intro hcontra
      simp only [Bool.and_eq_true, decide_eq_true_eq] at hcontra
      linarith [hb.1, hcontra.2]

/-- C3, witnessed: the theorem applied at the boundary call
`actor_distributions("M", 50, 50)` on a one-row Characters table, whose
result is the empty, correctly-columned table. -/
theorem actor_distributions_filter_invariant_witness :
    (⟨["Actor_Name", "Height_cm", "Gender"], []⟩ : ActorTable).columns
      = ["Actor_Name", "Height_cm", "Gender"] ∧
    (∀ r ∈ (⟨["Actor_Name", "Height_cm", "Gender"], []⟩ : ActorTable).rows,
      (50 : ℚ) ≤ r.2.1 ∧ r.2.1 ≤ (50 : ℚ) ∧ ("M" = "All" ∨ r.2.2 = "M")) ∧
    ((50 : ℚ) = 50 →
      (⟨["Actor_Name", "Height_cm", "Gender"], []⟩ : ActorTable).rows = []) :=
  actor_distributions_filter_invariant
    ⟨[], [[PyVal.str "M", PyVal.num (9/5), PyVal.str "John Smith"]]⟩
    "M" 50 50 ⟨["Actor_Name", "Height_cm", "Gender"], []⟩
    (by with_unfolding_all rfl)

/-- Whether a Python value is a string (`isinstance(x, str)`). -/
def isStrVal : PyVal → Bool
  | .str _ => true
  | _ => false

/-- Modelled from the claim: the condition under which claim C4 asserts
`actor_distributions` raises `InvalidArgument` — the gender argument is not
a string, a height bound is not convertible to a number, a bound is
non-positive or outside [50, 250] cm, or the min bound exceeds the max. -/
def claimC4Condition (gender mx mn : PyVal) : Prop :=
  isStrVal gender = false ∨
  (¬ ∃ q, pyFloat mx = Except.ok q) ∨
  (¬ ∃ q, pyFloat mn = Except.ok q) ∨
  (∃ qx qn, pyFloat mx = Except.ok qx ∧ pyFloat mn = Except.ok qn ∧
    (qx ≤ 0 ∨ qn ≤ 0 ∨ ¬ (50 ≤ qn ∧ qn ≤ 250) ∨ ¬ (50 ≤ qx ∧ qx ≤ 250) ∨
      qn > qx))

/-- C4, counterexample: with gender `"M"` and a `None` max bound the
claim's condition holds (the bound is not convertible to a number), yet the
call does not raise the `InvalidArgument`-style `ValueError` — it
propagates a `TypeError`, which only claim C10 describes. -/
theorem actor_distributions_invalid_argument_counterexample :
    claimC4Condition (PyVal.str "M") PyVal.none (PyVal.num 150) ∧
    isInvalidArgument (actor_distributions ⟨[], []⟩ (PyVal.str "M")
      PyVal.none (PyVal.num 150)) = false ∧
    actor_distributions ⟨[], []⟩ (PyVal.str "M") PyVal.none (PyVal.num 150)
      = Except.error PyErr.typeError := by
  refine ⟨?_, rfl, rfl⟩
  right; left
  rintro ⟨q, hq⟩
  simp [pyFloat] at hq

/-- C4, amended: `actor_distributions` raises the `InvalidArgument`-style
`ValueError` exactly when the gender argument is not a string, or — the
gender being a string — a height bound's conversion fails with a value
error (the max bound is converted first, so a max bound failing with a
type error propagates that type error instead), or both bounds convert and
one is non-positive or outside [50, 250] cm, or the converted min exceeds
the converted max. Each failure is a pure result of the arguments: the
function never touches the loaded tables before or while failing, and the
returned state is the caller's own unchanged `md`. -/
theorem actor_distributions_invalid_argument_iff (md : MovieData)
    (gender mx mn : PyVal) :
    isInvalidArgument (actor_distributions md gender mx mn) = true ↔
      (isStrVal gender = false ∨
       (isStrVal gender = true ∧
         ∃ m, pyFloat mx = Except.error (PyErr.valueError m)) ∨
       (isStrVal gender = true ∧ (∃ qx, pyFloat mx = Except.ok qx) ∧
         ∃ m, pyFloat mn = Except.error (PyErr.valueError m)) ∨
       (isStrVal gender = true ∧ ∃ qx qn, pyFloat mx = Except.ok qx ∧
         pyFloat mn = Except.ok qn ∧
         (qx ≤ 0 ∨ qn ≤ 0 ∨ ¬ (50 ≤ qn ∧ qn ≤ 250) ∨
           ¬ (50 ≤ qx ∧ qx ≤ 250) ∨ qn > qx))) := by
  cases gender with
  | num q => simp [actor_distributions, isInvalidArgument, isStrVal]
  | dict m => simp [actor_distributions, isInvalidArgument, isStrVal]
  | none => simp [actor_distributions, isInvalidArgument, isStrVal]
  | str g =>
    cases hmx : pyFloat mx with
    | error e =>
      cases e with
      | valueError m =>
        simp [actor_distributions, heightArgFloat, isInvalidArgument,
          isStrVal, hmx]
      | typeError =>
        simp [actor_distributions, heightArgFloat, isInvalidArgument,
          isStrVal, hmx]
    | ok qx =>
      cases hmn : pyFloat mn with
      | error e =>
        cases e with
        | valueError m =>
          simp [actor_distributions, heightArgFloat, isInvalidArgument,
            isStrVal, hmx, hmn]
        | typeError =>
          simp [actor_distributions, heightArgFloat, isInvalidArgument,
            isStrVal, hmx, hmn]
      | ok qn =>
        simp only [actor_distributions, heightArgFloat, hmx, hmn]
        by_cases hc1 : qx ≤ 0 ∨ qn ≤ 0
        · rw [if_pos hc1]
          exact iff_of_true rfl
            (Or.inr (Or.inr (Or.inr ⟨rfl, qx, qn, rfl, rfl, by tauto⟩)))
        rw [if_neg hc1]
        by_cases hc2 : ¬ (50 ≤ qn ∧ qn ≤ 250)
        · rw [if_pos hc2]
          exact iff_of_true rfl
            (Or.inr (Or.inr (Or.inr ⟨rfl, qx, qn, rfl, rfl, by tauto⟩)))
        rw [if_neg hc2]
        by_cases hc3 : ¬ (50 ≤ qx ∧ qx ≤ 250)
        · rw [if_pos hc3]
          exact iff_of_true rfl
            (Or.inr (Or.inr (Or.inr ⟨rfl, qx, qn, rfl, rfl, by tauto⟩)))
        rw [if_neg hc3]
        by_cases hc4 : qn > qx
        · rw [if_pos hc4]
          exact iff_of_true rfl
            (Or.inr (Or.inr (Or.inr ⟨rfl, qx, qn, rfl, rfl, by tauto⟩)))
        rw [if_neg hc4]
        refine iff_of_false (by simp [isInvalidArgument]) ?_
        intro hcond
        rcases hcond with h | h | h | h
        · simp [isStrVal] at h
        · obtain ⟨_, m, hm⟩ := h
          simp at hm
        · obtain ⟨_, _, m, hm⟩ := h
          simp at hm
        · obtain ⟨_, qx2, qn2, hqx, hqn, hbad⟩ := h
          rw [Except.ok.injEq] at hqx hqn
          subst hqx
          subst hqn
          tauto

theorem row_gender_heur_vals {row : List PyVal} {g : String}
    (hg : row_gender_heur row = some g) : g = "M" ∨ g = "F" := by
  obtain ⟨c, _, hc⟩ := List.exists_of_findSome?_eq_some hg
  cases c with
  | str s =>
    dsimp only at hc
    by_cases hs : s = "M" ∨ s = "F"
    · rw [if_pos hs] at hc
      injection hc with hc
      subst hc
      exact hs
    · rw [if_neg hs] at hc
      simp at hc
  | num q => simp at hc
  | dict m => simp at hc
  | none => simp at hc

theorem row_height_heur_b_bounds {row : List PyVal} {h : ℚ}
    (hh : row_height_heur_b row = some h) : 1 ≤ h ∧ h ≤ 5/2 := by
  obtain ⟨c, _, hc⟩ := List.exists_of_findSome?_eq_some hh
  cases c with
  | num q =>
    dsimp only at hc
    by_cases hq : 1 ≤ q ∧ q ≤ 5/2
    · rw [if_pos hq] at hc
      injection hc with hc
      exact hc ▸ hq
    · rw [if_neg hq] at hc
      simp at hc
  | str s =>
    dsimp only at hc
    by_cases hd : decimalToken s = true
    · rw [if_pos hd] at hc
      cases hp : parseFloat s with
      | none => rw [hp] at hc; simp at hc
      | some q =>
        rw [hp] at hc
        dsimp only at hc
        by_cases hq : 1 ≤ q ∧ q ≤ 5/2
        · rw [if_pos hq] at hc
          injection hc with hc
          exact hc ▸ hq
        · rw [if_neg hq] at hc
          simp at hc
    · rw [if_neg hd] at hc
      simp at hc
  | dict m => simp at hc
  | none => simp at hc

theorem row_name_heur_b_cond {row : List PyVal} {n : String}
    (hn : row_name_heur_b row = some n) : name_ok_b n = true := by
  obtain ⟨c, _, hc⟩ := List.exists_of_findSome?_eq_some hn
  cases c with
  | str s =>
    dsimp only at hc
    by_cases hok : name_ok_b s = true
    · rw [if_pos hok] at hc
      injection hc with hc
      exact hc ▸ hok
    · rw [if_neg hok] at hc
      simp at hc
  | num q => simp at hc
  | dict m => simp at hc
  | none => simp at hc

theorem name_ok_b_ne_empty {n : String} (h : name_ok_b n = true) : n ≠ "" := by
  intro he
  subst he
  exact Bool.false_ne_true h

theorem startsWith_slash_of_slash_m {s : String}
    (h : strStartsWith s "/m/" = true) : strStartsWith s "/" = true := by
  have h3 : ("/m/" : String).toList = ['/', 'm', '/'] := rfl
  have h1 : ("/" : String).toList = ['/'] := rfl
  rw [strStartsWith, h3] at h
  rw [strStartsWith, h1]
  cases hs : s.toList with
  | nil => rw [hs] at h; simp [leadingRun] at h
  | cons c t =>
    rw [hs] at h
    simp only [leadingRun, Bool.and_eq_true, decide_eq_true_eq] at h ⊢
    exact ⟨h.1, trivial⟩

theorem name_cell_eq (s : String)
    (hs : strStartsWith s "/" = true → strStartsWith s "/m/" = true) :
    name_ok_b s = (!(s = "M" || s = "F") && !(decimalToken s) &&
      !(strStartsWith s "/") && !(strContainsSub s "Unnamed") &&
      decide ((pySplit s).length > 1)) := by
  unfold name_ok_b
  cases h1 : strStartsWith s "/" with
  | true => rw [hs h1]
  | false =>
    have h2 : strStartsWith s "/m/" = false := by
      cases h2 : strStartsWith s "/m/" with
      | false => rfl
      | true => rw [startsWith_slash_of_slash_m h2] at h1; exact absurd h1 (by simp)
    rw [h2]

theorem row_name_b_eq_spec : ∀ row : List PyVal,
    (∀ s, PyVal.str s ∈ row →
      strStartsWith s "/" = true → strStartsWith s "/m/" = true) →
    row_name_heur_b row = spec_name_first row := by
  intro row
  induction row with
  | nil => intro _; rfl
  | cons c t ih =>
    intro hslash
    simp only [row_name_heur_b, spec_name_first, List.findSome?_cons] at ih ⊢
    cases c with
    | str s =>
      dsimp only
      rw [name_cell_eq s (fun hp => hslash s (List.mem_cons_self _ _) hp)]
      by_cases hb : (!(s = "M" || s = "F") && !(decimalToken s) &&
          !(strStartsWith s "/") && !(strContainsSub s "Unnamed") &&
          decide ((pySplit s).length > 1)) = true
      · rw [if_pos hb]
      · rw [if_neg hb]
        exact ih (fun x hx => hslash x (List.mem_cons_of_mem _ hx))
    | num q =>
      dsimp only
      exact ih (fun x hx => hslash x (List.mem_cons_of_mem _ hx))
    | dict m =>
      dsimp only
      exact ih (fun x hx => hslash x (List.mem_cons_of_mem _ hx))
    | none =>
      dsimp only
      exact ih (fun x hx => hslash x (List.mem_cons_of_mem _ hx))

theorem scan_rows_b_inclusion (row : List PyVal) :
    scan_rows_b [row] ≠ [] ↔
      (row_gender_heur row).isSome ∧ (row_height_heur_b row).isSome ∧
        (row_name_heur_b row).isSome := by
  rcases hg : row_gender_heur row with _ | g
  · simp [scan_rows_b, hg]
  rcases hh : row_height_heur_b row with _ | h
  · simp [scan_rows_b, hg, hh]
  rcases hn : row_name_heur_b row with _ | n
  · simp [scan_rows_b, hg, hh, hn]
  have hgv := row_gender_heur_vals hg
  have hhv := row_height_heur_b_bounds hh
  have hnv := name_ok_b_ne_empty (row_name_heur_b_cond hn)
  have hcond : g ≠ "" ∧ h * 100 ≠ 0 ∧ n ≠ "" := by
    refine ⟨?_, ?_, hnv⟩
    · rcases hgv with h1 | h1 <;> subst h1 <;> simp
    · intro h0
      nlinarith [hhv.1]
  simp [scan_rows_b, hg, hh, hn, hcond]

/-- C5, counterexample: in the root draft (src/movie_data.py line 194) the
actor name selected is merely the first string cell containing no digit
character — on this row that is the gender code `"M"`, a single-token
value, which the returned table indeed carries as `Actor_Name` — whereas
the name described by the claim (modelled by `spec_name_first`) is
`"Margot Robbie"`. -/
theorem root_name_heuristic_counterexample :
    row_name_heur [PyVal.str "/m/03vyhn", PyVal.num (9/5), PyVal.str "M",
      PyVal.str "Margot Robbie"] = some "M" ∧
    spec_name_first [PyVal.str "/m/03vyhn", PyVal.num (9/5), PyVal.str "M",
      PyVal.str "Margot Robbie"] = some "Margot Robbie" ∧
    actor_distributions ⟨[], [[PyVal.str "/m/03vyhn", PyVal.num (9/5),
      PyVal.str "M", PyVal.str "Margot Robbie"]]⟩ (PyVal.str "All")
      (PyVal.num 250) (PyVal.num 50)
      = Except.ok ⟨["Actor_Name", "Height_cm", "Gender"], [("M", 180, "M")]⟩ ∧
    some "M" ≠ some "Margot Robbie" := by
  refine ⟨rfl, by with_unfolding_all rfl, by with_unfolding_all rfl, by decide⟩

/-- C5, amended: the claim's name-selection rule is the one of the
Backend_and_dataset draft, whose slash test checks the specific `/m/`
prefix — equivalent to the claim's "slash-prefixed" wording on every row
whose slash-prefixed string cells are `/m/` identifier codes, as in the
dataset — while the root draft (see the counterexample) selects merely the
first digit-free string cell. In the Backend draft a row is included
exactly when the gender, height and name heuristics all succeed. -/
theorem backend_name_heuristic_amended (row : List PyVal)
    (hslash : ∀ s, PyVal.str s ∈ row →
      strStartsWith s "/" = true → strStartsWith s "/m/" = true) :
    row_name_heur_b row = spec_name_first row ∧
    (scan_rows_b [row] ≠ [] ↔
      (row_gender_heur row).isSome ∧ (row_height_heur_b row).isSome ∧
        (row_name_heur_b row).isSome) :=
  ⟨row_name_b_eq_spec row hslash, scan_rows_b_inclusion row⟩

/-- C5, witnessed: the amended theorem applied to a concrete Characters row
with a `/m/` identifier, a gender code, a metre height and a two-token
name. -/
theorem backend_name_heuristic_amended_witness :
    row_name_heur_b [PyVal.str "/m/0k1", PyVal.str "F", PyVal.num 2,
        PyVal.str "Jane Doe"]
      = spec_name_first [PyVal.str "/m/0k1", PyVal.str "F", PyVal.num 2,
        PyVal.str "Jane Doe"] ∧
    (scan_rows_b [[PyVal.str "/m/0k1", PyVal.str "F", PyVal.num 2,
        PyVal.str "Jane Doe"]] ≠ [] ↔
      (row_gender_heur [PyVal.str "/m/0k1", PyVal.str "F", PyVal.num 2,
        PyVal.str "Jane Doe"]).isSome ∧
      (row_height_heur_b [PyVal.str "/m/0k1", PyVal.str "F", PyVal.num 2,
        PyVal.str "Jane Doe"]).isSome ∧
      (row_name_heur_b [PyVal.str "/m/0k1", PyVal.str "F", PyVal.num 2,
        PyVal.str "Jane Doe"]).isSome) :=
  backend_name_heuristic_amended
    [PyVal.str "/m/0k1", PyVal.str "F", PyVal.num 2, PyVal.str "Jane Doe"]
    (by
      intro s hs hpre
      simp at hs
      rcases hs with h | h | h <;> subst h <;> revert hpre <;> decide)
